import Mathlib

/-!
# Ayshas-finance-tracking: verified embedding of the ledger engine

A shallow embedding, in Lean 4, of the core logic of the
`mmsheref/Ayshas-finance-tracking` repository (a daily sales/expense ledger for
a small shop), together with theorems settling the specification's claims.

Modelling conventions, used throughout:

* JavaScript numbers are modelled as `ℚ`; the distinguished values `NaN` and
  `undefined` (which matter because the code coerces them with `x || 0`) are
  carried explicitly by the `Amount` type.
* Calendar dates are ISO `YYYY-MM-DD` strings in the source; lexicographic
  comparison of such strings coincides with chronological order, and
  `new Date(s).getTime()` differences are whole multiples of 86 400 000 ms.
  We therefore model a date as its integer day number (`ℤ`), under which both
  the string comparisons of `Dashboard.tsx` and the millisecond arithmetic of
  `inventoryAlerts` become integer comparison and subtraction.
* React `useState` updaters become pure functions from the old state to the
  new state; a handler that only calls one `setX` is a function that updates
  only that field of the form state.
* Fresh `uuidv4()` identifiers are passed in as explicit arguments.
-/

/-- A JavaScript numeric field as stored on an expense item: a proper number,
`NaN` (produced by `parseFloat` on non-numeric text), or `undefined` (legacy
records that predate the field). -/
inductive Amount where
  | undef
  | nan
  | num (q : ℚ)
deriving DecidableEq, Repr

/-- JS `x || 0` on a number-or-undefined: `undefined`, `NaN` and `±0` are falsy
and give `0`; every other number is returned unchanged. -/
def Amount.orZero : Amount → ℚ
  | .num q => q
  | _ => 0

/-- JS `x > 0` on a number-or-undefined: false for `NaN` and `undefined`. -/
def Amount.isPos : Amount → Bool
  | .num q => decide (0 < q)
  | _ => false

/-- JS `parseFloat(x) || 0` applied to an already-parsed value: `NaN` becomes
`0` (and `parseFloat` never yields `undefined`). -/
def Amount.orZeroNum : Amount → ℚ
  | .num q => q
  | _ => 0

/-- `ExpenseItem` from `types.ts`: one named expense line of a record. -/
structure ExpenseItem where
  id : String
  name : String
  amount : Amount
  billPhotos : List String
deriving DecidableEq, Repr

/-- `ExpenseCategory` from `types.ts`: a named ordered group of items. -/
structure ExpenseCategory where
  id : String
  name : String
  items : List ExpenseItem
deriving DecidableEq, Repr

/-- `DailyRecord` from `types.ts`.  `date` is the integer day number standing
for the ISO date string (see the header); `isCompleted` is `Option Bool`
because legacy stored records may lack the field (`undefined` = `none`). -/
structure DailyRecord where
  id : String
  date : ℤ
  morningSales : ℚ
  totalSales : ℚ
  expenses : List ExpenseCategory
  isClosed : Bool
  isCompleted : Option Bool
deriving DecidableEq, Repr

/-- The three-state record status of `RecordForm.tsx`
(`'IN_PROGRESS' | 'COMPLETED' | 'CLOSED'`). -/
inductive RStatus where
  | IN_PROGRESS
  | COMPLETED
  | CLOSED
deriving DecidableEq, Repr

/-! ## JS string primitives used by the handlers -/

/-- The whitespace characters stripped by JS before numeric parsing and by
`String.prototype.trim` (the common ASCII subset; exotic Unicode space
characters are outside the modelled fragment). -/
def jsIsWs (c : Char) : Bool :=
  c = ' ' || c = '\t' || c = '\n' || c = '\r'

/-- Decimal value of a digit string, most significant first. -/
def digitsToNat (ds : List Char) : ℕ :=
  ds.foldl (fun a c => a * 10 + (c.toNat - 48)) 0

/-- Exponent suffix of a JS decimal literal: after the `e`/`E`, an optional
sign and digits; if no digit follows, the exponent part is not consumed and
contributes `0`. -/
def parseExpTail (r : List Char) : ℤ :=
  let (esign, r') : ℤ × List Char :=
    match r with
    | '-' :: t => (-1, t)
    | '+' :: t => (1, t)
    | _ => (1, r)
  let ds := r'.takeWhile Char.isDigit
  if ds.isEmpty then 0 else esign * (digitsToNat ds : ℤ)

/-- JS `parseFloat`: skip leading whitespace, optional sign, then the longest
prefix `digits [. digits] [e/E [sign] digits]`; `NaN` when no digit is found.
(The `Infinity` and hexadecimal forms are outside the modelled fragment; the
HTML `number` inputs feeding these handlers only produce plain decimal
strings or the empty string.) -/
def jsParseFloat (s : String) : Amount :=
  let cs := s.data.dropWhile jsIsWs
  let (sign, cs1) : ℤ × List Char :=
    match cs with
    | '-' :: r => (-1, r)
    | '+' :: r => (1, r)
    | _ => (1, cs)
  let ip := cs1.takeWhile Char.isDigit
  let r1 := cs1.dropWhile Char.isDigit
  let (fp, r2) : List Char × List Char :=
    match r1 with
    | '.' :: r => (r.takeWhile Char.isDigit, r.dropWhile Char.isDigit)
    | _ => ([], r1)
  if ip.isEmpty && fp.isEmpty then .nan
  else
    let e : ℤ :=
      match r2 with
      | 'e' :: r => parseExpTail r
      | 'E' :: r => parseExpTail r
      | _ => 0
    -- the parsed value is sign · (ip.fp) · 10^e; with M the digits of `ip.fp`
    -- read as an integer this is sign · M · 10^(e - fp.length), built here as
    -- one exact rational
    let M : ℕ := digitsToNat ip * 10 ^ fp.length + digitsToNat fp
    let shift : ℤ := e - fp.length
    .num (if 0 ≤ shift then mkRat (sign * (M * 10 ^ shift.toNat : ℕ)) 1
          else mkRat (sign * M) (10 ^ (-shift).toNat))

/-- JS `String.prototype.trim` (ASCII whitespace fragment). -/
def jsTrim (s : String) : String :=
  ⟨((s.data.dropWhile jsIsWs).reverse.dropWhile jsIsWs).reverse⟩

/-- JS `String.prototype.toLowerCase` on the ASCII letters appearing in
category names. -/
def jsCharLower (c : Char) : Char :=
  if 'A' ≤ c && c ≤ 'Z' then Char.ofNat (c.toNat + 32) else c

/-- Lower-case a string character by character (JS `toLowerCase`). -/
def jsToLower (s : String) : String :=
  ⟨s.data.map jsCharLower⟩

/-- JS `String.prototype.includes`: `sub` occurs contiguously in `s`. -/
def jsIncludes (s sub : String) : Bool :=
  s.data.tails.any (fun t => sub.data.isPrefixOf t)

/-! ## Per-record totals (`RecordForm.tsx` 108–112, `Dashboard.tsx` 115) -/

/-- `currentTotalExpenses` of `RecordForm.tsx` (lines 108–112):
`expenses.reduce((total, cat) => total + cat.items.reduce((sub, item) =>
sub + (item.amount || 0), 0), 0)`. -/
def currentTotalExpenses (expenses : List ExpenseCategory) : ℚ :=
  expenses.foldl
    (fun total cat => total + cat.items.foldl (fun sub item => sub + item.amount.orZero) 0)
    0

/-- `calculateTotalExpenses` (imported by `Dashboard.tsx` from
`utils/record-utils`, whose file is not in the sample).  Modelled from the
spec: `totalExpenses(record)` = sum of `amount` over every item of every
category, `amount` defaulting to 0 when falsy/undefined/NaN — the same
`reduce` formula the sampled sources repeat inline (`RecordForm.tsx` 108–112,
`Dashboard.tsx` 115, `RecordDetail` 462). -/
def calculateTotalExpenses (r : DailyRecord) : ℚ :=
  currentTotalExpenses r.expenses

/-- The specification's reading of `totalExpenses`: the sum of
`item.amount` over the flattened item list, falsy/undefined/NaN items
contributing `0`. -/
def specTotalExpenses (expenses : List ExpenseCategory) : ℚ :=
  ((expenses.flatMap (·.items)).map (fun item => item.amount.orZero)).sum

/-- `cat.items.reduce((s, i) => s + (i.amount || 0), 0)` — the per-category
subtotal used by `Dashboard.tsx` (line 115) and `RecordForm.tsx` (line 281). -/
def catTotal (cat : ExpenseCategory) : ℚ :=
  cat.items.foldl (fun s i => s + i.amount.orZero) 0

/-! ## RecordForm state and handlers (`RecordForm.tsx`) -/

/-- The form state of `RecordForm.tsx` that the submit and edit handlers
read: the date input (`none` models the empty string, which is falsy), the
two raw sales input strings, the working expense tree and the selected
status. -/
structure FormState where
  date : Option ℤ
  morningSales : String
  totalSales : String
  expenses : List ExpenseCategory
  status : RStatus
deriving DecidableEq, Repr

/-- The amount written by `handleExpenseChange` (`RecordForm.tsx` 82–93):
`amount === '' ? 0 : parseFloat(amount)`. -/
def amountEditVal (raw : String) : Amount :=
  if raw = "" then .num 0 else jsParseFloat raw

/-- `handleExpenseChange` (`RecordForm.tsx` 82–93): map over the categories,
returning every category whose id differs unchanged, and inside the matching
category map over the items, rewriting only the matching item's `amount`. -/
def handleExpenseChange (expenses : List ExpenseCategory)
    (categoryId itemId : String) (amount : String) : List ExpenseCategory :=
  expenses.map fun cat =>
    if cat.id ≠ categoryId then cat
    else { cat with
      items := cat.items.map fun item =>
        if item.id ≠ itemId then item
        else { item with amount := amountEditVal amount } }

/-- `handlePhotosChange` (`RecordForm.tsx` 95–106): same shape, replacing the
matching item's `billPhotos` wholesale. -/
def handlePhotosChange (expenses : List ExpenseCategory)
    (categoryId itemId : String) (photos : List String) : List ExpenseCategory :=
  expenses.map fun cat =>
    if cat.id ≠ categoryId then cat
    else { cat with
      items := cat.items.map fun item =>
        if item.id ≠ itemId then item
        else { item with billPhotos := photos } }

/-- The amount edit as a form-state update: the handler calls only
`setExpenses`, so the date, sales inputs and status atoms are untouched. -/
def applyAmountEdit (s : FormState) (categoryId itemId : String) (raw : String) : FormState :=
  { s with expenses := handleExpenseChange s.expenses categoryId itemId raw }

/-- The photo edit as a form-state update (only `setExpenses` is called). -/
def applyPhotoEdit (s : FormState) (categoryId itemId : String)
    (photos : List String) : FormState :=
  { s with expenses := handlePhotosChange s.expenses categoryId itemId photos }

/-- `handleSubmit` (`RecordForm.tsx` 119–153), as a pure function from the
form state to either a blocking validation alert (nothing is passed to
`handleSave`) or the `newRecord` handed to storage.  `recordId` is the route
parameter (`none` when creating), `newId` the fresh `uuidv4()`. -/
def handleSubmit (s : FormState) (recordId : Option String) (newId : String) :
    Except String DailyRecord :=
  match s.date with
  | none => .error "Date is required"
  | some d =>
    if s.status ≠ .CLOSED ∧ s.totalSales = "" ∧ s.status = .COMPLETED then
      .error "Total Sales is required to mark as Completed"
    else
      .ok
        { id := recordId.getD newId
          date := d
          morningSales := (jsParseFloat s.morningSales).orZeroNum
          totalSales := (jsParseFloat s.totalSales).orZeroNum
          expenses := s.expenses
          isClosed := s.status == .CLOSED
          isCompleted := some (s.status == .COMPLETED || s.status == .CLOSED) }

/-- The status decode of the first `RecordForm.tsx` variant (lines 49–55):
`if (record.isClosed) CLOSED; else if (record.isCompleted) COMPLETED; else
IN_PROGRESS` — the truthiness test sends an absent/`undefined`
`isCompleted` to `IN_PROGRESS`. -/
def decodeStatusV1 (r : DailyRecord) : RStatus :=
  if r.isClosed then .CLOSED
  else if r.isCompleted = some true then .COMPLETED
  else .IN_PROGRESS

/-- The status decode of the second `RecordForm.tsx` variant (lines 445–453):
`IN_PROGRESS` only on an explicit `isCompleted === false`; legacy records
with the field absent default to `COMPLETED`. -/
def decodeStatusV2 (r : DailyRecord) : RStatus :=
  if r.isClosed then .CLOSED
  else if r.isCompleted = some false then .IN_PROGRESS
  else .COMPLETED

/-- A stored record carrying only the two status flags (the other fields do
not influence the decode); used for concrete decode evaluations. -/
def storedRec (isClosed : Bool) (isCompleted : Option Bool) : DailyRecord :=
  { id := "r1", date := 0, morningSales := 0, totalSales := 0, expenses := [],
    isClosed := isClosed, isCompleted := isCompleted }

/-! ## Expense taxonomy editor (`src/unnamed/part_000`) -/

/-- One item template of the `CustomExpenseStructure`. -/
structure ItemTemplate where
  name : String
  defaultValue : ℚ
deriving DecidableEq, Repr

/-- `CustomExpenseStructure`: a JS object mapping category name to item
templates.  JS objects preserve string-key insertion order (the editor's
reorder handlers rebuild the object from a permuted key list), so the
faithful model is an ordered association list. -/
def CustomExpenseStructure : Type := List (String × List ItemTemplate)

instance : DecidableEq CustomExpenseStructure :=
  inferInstanceAs (DecidableEq (List (String × List ItemTemplate)))

/-- `internalStructure[catName]` on the association list. -/
def structGet (st : CustomExpenseStructure) (catName : String) : Option (List ItemTemplate) :=
  (st.find? (fun p => p.1 = catName)).map (·.2)

/-- `{ ...prev, [catName]: items }` for an already-present key: the key keeps
its position and only its value changes. -/
def structSet (st : CustomExpenseStructure) (catName : String)
    (items : List ItemTemplate) : CustomExpenseStructure :=
  st.map (fun p => if p.1 = catName then (p.1, items) else p)

/-- Result of the taxonomy editor's `handleAddItem` (`src/unnamed/part_000`
lines 58–73).  `emptyName` models the silent `if (!itemName) return;`,
`missingCategory` the `TypeError` the source would throw reading `.some` of
`undefined` (unreachable from the UI, which only passes rendered keys), and
`dup` the `alert('Item already exists in this category')` early return that
leaves the structure unchanged. -/
inductive AddItemResult where
  | emptyName
  | missingCategory
  | dup
  | ok (st : CustomExpenseStructure)
deriving DecidableEq

/-- `handleAddItem` of the taxonomy editor (`src/unnamed/part_000` 58–73):
trim the input; bail out on empty; reject when `currentItems.some(i =>
i.name === itemName)` — an exact, case-sensitive comparison; otherwise
append `{ name: itemName, defaultValue: 0 }` at the end of the category's
item order. -/
def handleAddItem (st : CustomExpenseStructure) (catName rawInput : String) : AddItemResult :=
  let itemName := jsTrim rawInput
  if itemName = "" then .emptyName
  else
    match structGet st catName with
    | none => .missingCategory
    | some currentItems =>
      if currentItems.any (fun i => i.name = itemName) then .dup
      else .ok (structSet st catName (currentItems ++ [⟨itemName, 0⟩]))

/-! ## List reordering (`src/unnamed/part_000`: `moveItem`, `handleDropItem`) -/

/-- The effect of JS `list.splice(i, 0, a)`: insert `a` so that it sits at
index `i` (clamped to the end when `i` exceeds the length). -/
def spliceInsert {α : Type*} (l : List α) (i : ℕ) (a : α) : List α :=
  l.take i ++ a :: l.drop i

/-- The arrow direction of the manual reorder buttons. -/
inductive MoveDir where
  | up
  | down
deriving DecidableEq, Repr

/-- `moveItem` (`src/unnamed/part_000` 108–120), one press of an arrow
button: `newIndex = index ± 1`; if it falls outside the list, do nothing;
otherwise `splice` the element out and `splice` it back in at `newIndex`.
(When `index` itself is out of range the source would splice `undefined`
into the copy; that branch is unreachable from the rendered buttons and is
modelled as a no-op.) -/
def moveItem {α : Type*} (l : List α) (index : ℕ) (dir : MoveDir) : List α :=
  let newIndex : ℤ := match dir with
    | .up => (index : ℤ) - 1
    | .down => (index : ℤ) + 1
  if newIndex < 0 ∨ (l.length : ℤ) ≤ newIndex then l
  else
    match l[index]? with
    | none => l
    | some a => spliceInsert (l.eraseIdx index) newIndex.toNat a

/-- `handleDropItem` (`src/unnamed/part_000` 172–181), the drag-and-drop
reorder: `splice` the dragged element out at its start index and back in at
the drop index.  `moveCategory`/`handleDropCategory` run the identical
splice pair on the structure's key list. -/
def handleDropItem {α : Type*} (l : List α) (dragIndex dropIndex : ℕ) : List α :=
  match l[dragIndex]? with
  | none => l
  | some a => spliceInsert (l.eraseIdx dragIndex) dropIndex a

/-- Pressing the down arrow `k` times starting from position `i` (the moved
element travels with the presses: after one press it sits at `i + 1`). -/
def arrowMoveDown {α : Type*} (l : List α) (i : ℕ) : ℕ → List α
  | 0 => l
  | k + 1 => arrowMoveDown (moveItem l i .down) (i + 1) k

/-- Pressing the up arrow `k` times starting from position `i`. -/
def arrowMoveUp {α : Type*} (l : List α) (i : ℕ) : ℕ → List α
  | 0 => l
  | k + 1 => arrowMoveUp (moveItem l i .up) (i - 1) k

/-- The manual arrow-button reorder from `src` to `dst`: press the
appropriate arrow `|dst - src|` times. -/
def arrowMove {α : Type*} (l : List α) (src dst : ℕ) : List α :=
  if src ≤ dst then arrowMoveDown l src (dst - src) else arrowMoveUp l src (src - dst)

/-! ## Dashboard aggregation (`Dashboard.tsx` 101–127) -/

/-- The current-month fields of `dashboardData` (the last-month comparison
`diffPercent` reads ambient clock state and is outside the claims). -/
structure MonthAggregate where
  totalSales : ℚ
  totalExpenses : ℚ
  netProfit : ℚ
  foodCostPct : ℚ
  laborCostPct : ℚ
  recordCount : ℕ
deriving DecidableEq, Repr

/-- The category-name test for the labor-cost heuristic (`Dashboard.tsx`
120): `cat.name.toLowerCase().includes('labour') ||
cat.name.toLowerCase().includes('labor')`. -/
def isLaborCategory (name : String) : Bool :=
  jsIncludes (jsToLower name) "labour" || jsIncludes (jsToLower name) "labor"

/-- The record filter of `dashboardData` (`Dashboard.tsx` 103): keep records
in the inclusive `[monthStart, monthEnd]` date range that are not
`isClosed`. -/
def currentMonthOf (sortedRecords : List DailyRecord) (monthStart monthEnd : ℤ) :
    List DailyRecord :=
  sortedRecords.filter
    (fun r => decide (monthStart ≤ r.date) && decide (r.date ≤ monthEnd) && !r.isClosed)

/-- The current-month block of `dashboardData` (`Dashboard.tsx` 101–127) —
the spec's `monthAggregate`: sum sales and expenses of the filtered records;
add each category subtotal into `foodCost` when the name is a configured
food category and into `laborCost` when it matches the labor heuristic; the
two percentages guard against division by a non-positive sales total. -/
def dashboardData (sortedRecords : List DailyRecord) (monthStart monthEnd : ℤ)
    (foodCostCategories : List String) : MonthAggregate :=
  let currentMonthRecords := currentMonthOf sortedRecords monthStart monthEnd
  let totalSales := currentMonthRecords.foldl (fun sum r => sum + r.totalSales) 0
  let totalExpenses := currentMonthRecords.foldl
    (fun sum r => sum + calculateTotalExpenses r) 0
  let netProfit := totalSales - totalExpenses
  let costs : ℚ × ℚ := currentMonthRecords.foldl
    (fun acc r => r.expenses.foldl
      (fun acc cat =>
        let ct := catTotal cat
        let acc1 := if foodCostCategories.contains cat.name then (acc.1 + ct, acc.2) else acc
        if isLaborCategory cat.name then (acc1.1, acc1.2 + ct) else acc1)
      acc)
    (0, 0)
  let foodCostPct := if 0 < totalSales then costs.1 / totalSales * 100 else 0
  let laborCostPct := if 0 < totalSales then costs.2 / totalSales * 100 else 0
  { totalSales := totalSales
    totalExpenses := totalExpenses
    netProfit := netProfit
    foodCostPct := foodCostPct
    laborCostPct := laborCostPct
    recordCount := currentMonthRecords.length }

/-- The reference food-cost sum for the claims: over the filtered records,
the total of the subtotals of the categories whose name is configured as a
food-cost category. -/
def foodCostOf (records : List DailyRecord) (foodCostCategories : List String) : ℚ :=
  (records.map (fun r =>
    ((r.expenses.filter (fun cat => foodCostCategories.contains cat.name)).map catTotal).sum)).sum

/-- The reference labor-cost sum: same shape with the labor name heuristic. -/
def laborCostOf (records : List DailyRecord) : ℚ :=
  (records.map (fun r =>
    ((r.expenses.filter (fun cat => isLaborCategory cat.name)).map catTotal).sum)).sum

/-! ## Inventory watch (`Dashboard.tsx` 171–189) -/

/-- One entry of the inventory watch list. -/
structure Alert where
  name : String
  daysAgo : ℤ
deriving DecidableEq, Repr

/-- The single alert built for one tracked item name: find the first record
of the (descending-date) collection containing that item with a positive
amount; report the whole-day difference to `today` (with dates as day
numbers, `Math.ceil(Math.abs(Δms) / 86 400 000)` is exactly `|today - date|`)
or the sentinel `-1` when no record matches. -/
def alertFor (records : List DailyRecord) (today : ℤ) (itemName : String) : Alert :=
  match records.find? (fun r =>
      r.expenses.any (fun cat => cat.items.any (fun i => i.name == itemName && i.amount.isPos))) with
  | some r => { name := itemName, daysAgo := |today - r.date| }
  | none => { name := itemName, daysAgo := -1 }

/-- The comparator of `alerts.sort((a, b) => b.daysAgo - a.daysAgo)`: a
stable sort into descending `daysAgo` order. -/
def alertGE (a b : Alert) : Prop := b.daysAgo ≤ a.daysAgo

instance : DecidableRel alertGE := fun a b => inferInstanceAs (Decidable (b.daysAgo ≤ a.daysAgo))

/-- `inventoryAlerts` (`Dashboard.tsx` 171–189): empty when nothing is
tracked; otherwise one alert per tracked item, sorted by the descending
`daysAgo` comparator (JS `sort` is stable, as is insertion sort). -/
def inventoryAlerts (records : List DailyRecord) (trackedItems : List String)
    (today : ℤ) : List Alert :=
  if trackedItems.length = 0 then []
  else List.insertionSort alertGE (trackedItems.map (alertFor records today))

/-- A concrete record for exercising the inventory watch: on day 5 the item
"A" was bought (amount 1); nothing else appears. -/
def watchRec : DailyRecord :=
  { id := "rA", date := 5, morningSales := 0, totalSales := 0,
    expenses := [⟨"cat1", "Grocery", [⟨"it1", "A", .num 1, []⟩]⟩],
    isClosed := false, isCompleted := some true }

/-! ## Frame relations for the targeted item edits -/

/-- Relation between a category before and after an amount edit targeting
`(categoryId, itemId)`: id, name and item count are preserved; every item
keeps its id, name and photo list; a non-targeted item is untouched; the
targeted item's amount becomes the parsed value. -/
def catFrameAmount (categoryId itemId raw : String) (c c' : ExpenseCategory) : Prop :=
  c'.id = c.id ∧ c'.name = c.name ∧
    List.Forall₂ (fun i i' =>
        i'.id = i.id ∧ i'.name = i.name ∧ i'.billPhotos = i.billPhotos
        ∧ (¬(c.id = categoryId ∧ i.id = itemId) → i' = i)
        ∧ (c.id = categoryId ∧ i.id = itemId → i'.amount = amountEditVal raw))
      c.items c'.items

/-- Relation between a category before and after a photo edit targeting
`(categoryId, itemId)`: id, name, item count, per-item id/name/amount are
preserved; a non-targeted item is untouched; the targeted item's photo list
is replaced wholesale. -/
def catFramePhotos (categoryId itemId : String) (photos : List String)
    (c c' : ExpenseCategory) : Prop :=
  c'.id = c.id ∧ c'.name = c.name ∧
    List.Forall₂ (fun i i' =>
        i'.id = i.id ∧ i'.name = i.name ∧ i'.amount = i.amount
        ∧ (¬(c.id = categoryId ∧ i.id = itemId) → i' = i)
        ∧ (c.id = categoryId ∧ i.id = itemId → i'.billPhotos = photos))
      c.items c'.items

/-! # Helper lemmas -/

lemma foldl_add_eq_sum {β : Type*} (f : β → ℚ) :
    ∀ (l : List β) (a : ℚ), l.foldl (fun s x => s + f x) a = a + (l.map f).sum
  | [], a => by simp
  | x :: l, a => by
    rw [List.foldl_cons, foldl_add_eq_sum f l (a + f x)]
    simp [add_assoc]

lemma catTotal_eq_sum (cat : ExpenseCategory) :
    catTotal cat = (cat.items.map (fun i => i.amount.orZero)).sum := by
  simpa using foldl_add_eq_sum (fun i => i.amount.orZero) cat.items 0

lemma map_catSum_eq_spec :
    ∀ expenses : List ExpenseCategory,
      (expenses.map (fun cat => (cat.items.map (fun i => i.amount.orZero)).sum)).sum
        = specTotalExpenses expenses
  | [] => rfl
  | c :: rest => by
    simp only [List.map_cons, List.sum_cons, specTotalExpenses, List.flatMap_cons,
      List.map_append, List.sum_append]
    exact congrArg (_ + ·) (map_catSum_eq_spec rest)

lemma forall₂_catFrameAmount (expenses : List ExpenseCategory) (cid iid raw : String) :
    List.Forall₂ (catFrameAmount cid iid raw) expenses
      (handleExpenseChange expenses cid iid raw) := by
  rw [handleExpenseChange, List.forall₂_map_right_iff, List.forall₂_same]
  intro cat _
  by_cases hc : cat.id = cid
  · simp only [catFrameAmount, hc, ne_eq, not_true_eq_false, if_false, true_and, and_true,
      not_false_eq_true, true_implies, and_imp]
    rw [List.forall₂_map_right_iff, List.forall₂_same]
    intro item _
    by_cases hi : item.id = iid
    · simp [hi]
    · simp [hi]
  · simp only [catFrameAmount, hc, ne_eq, not_false_eq_true, if_true, false_and,
      true_and, false_implies, and_true, not_false_eq_true, true_implies]
    rw [List.forall₂_same]
    intro item _
    simp

lemma forall₂_catFramePhotos (expenses : List ExpenseCategory) (cid iid : String)
    (photos : List String) :
    List.Forall₂ (catFramePhotos cid iid photos) expenses
      (handlePhotosChange expenses cid iid photos) := by
  rw [handlePhotosChange, List.forall₂_map_right_iff, List.forall₂_same]
  intro cat _
  by_cases hc : cat.id = cid
  · simp only [catFramePhotos, hc, ne_eq, not_true_eq_false, if_false, true_and, and_true,
      not_false_eq_true, true_implies, and_imp]
    rw [List.forall₂_map_right_iff, List.forall₂_same]
    intro item _
    by_cases hi : item.id = iid
    · simp [hi]
    · simp [hi]
  · simp only [catFramePhotos, hc, ne_eq, not_false_eq_true, if_true, false_and,
      true_and, false_implies, and_true, not_false_eq_true, true_implies]
    rw [List.forall₂_same]
    intro item _
    simp

lemma inventoryAlerts_perm (records : List DailyRecord) (tracked : List String)
    (today : ℤ) :
    (inventoryAlerts records tracked today).Perm (tracked.map (alertFor records today)) := by
  rw [inventoryAlerts]
  split
  · next h => simp [List.length_eq_zero.mp h]
  · exact List.perm_insertionSort alertGE _

lemma inventoryAlerts_sorted (records : List DailyRecord) (tracked : List String)
    (today : ℤ) :
    List.Sorted alertGE (inventoryAlerts records tracked today) := by
  rw [inventoryAlerts]
  split
  · exact List.sorted_nil
  · haveI : IsTotal Alert alertGE := ⟨fun a b => le_total b.daysAgo a.daysAgo⟩
    haveI : IsTrans Alert alertGE := ⟨fun a b c h1 h2 => le_trans h2 h1⟩
    exact List.sorted_insertionSort alertGE _

lemma filter_map_sum_if {β : Type*} (p : β → Bool) (f : β → ℚ) :
    ∀ l : List β, ((l.filter p).map f).sum = (l.map (fun x => if p x then f x else 0)).sum
  | [] => rfl
  | x :: l => by
    by_cases h : p x <;> simp [List.filter_cons, h, filter_map_sum_if p f l]

lemma cost_fold_cat (foodCats : List String) :
    ∀ (cats : List ExpenseCategory) (acc : ℚ × ℚ),
      cats.foldl (fun acc cat =>
          let ct := catTotal cat
          let acc1 := if foodCats.contains cat.name then (acc.1 + ct, acc.2) else acc
          if isLaborCategory cat.name then (acc1.1, acc1.2 + ct) else acc1) acc
        = (acc.1 + ((cats.filter (fun c => foodCats.contains c.name)).map catTotal).sum,
           acc.2 + ((cats.filter (fun c => isLaborCategory c.name)).map catTotal).sum)
  | [], acc => by simp
  | c :: cs, acc => by
    rw [List.foldl_cons, cost_fold_cat foodCats cs]
    by_cases hf : foodCats.contains c.name <;> by_cases hl : isLaborCategory c.name <;>
      simp only [hf, hl, if_true, if_false, List.filter_cons, List.map_cons, List.sum_cons,
        Bool.false_eq_true, ite_true, ite_false] <;>
      refine Prod.ext ?_ ?_ <;> dsimp only <;> ring

lemma cost_fold_records (foodCats : List String) :
    ∀ (rs : List DailyRecord) (acc : ℚ × ℚ),
      rs.foldl (fun acc r => r.expenses.foldl (fun acc cat =>
          let ct := catTotal cat
          let acc1 := if foodCats.contains cat.name then (acc.1 + ct, acc.2) else acc
          if isLaborCategory cat.name then (acc1.1, acc1.2 + ct) else acc1) acc) acc
        = (acc.1 + foodCostOf rs foodCats, acc.2 + laborCostOf rs)
  | [], acc => by simp [foodCostOf, laborCostOf]
  | r :: rs, acc => by
    rw [List.foldl_cons, cost_fold_cat foodCats, cost_fold_records foodCats rs]
    simp only [foodCostOf, laborCostOf, List.map_cons, List.sum_cons]
    refine Prod.ext ?_ ?_ <;> dsimp only <;> ring

lemma spliceInsert_cons {α : Type*} (x : α) (t : List α) (n : ℕ) (a : α) :
    spliceInsert (x :: t) (n + 1) a = x :: spliceInsert t n a := by
  simp [spliceInsert]

lemma spliceInsert_append {α : Type*} (l₁ l₂ : List α) (j : ℕ) (a : α) :
    spliceInsert (l₁ ++ l₂) (l₁.length + j) a = l₁ ++ spliceInsert l₂ j a := by
  induction l₁ with
  | nil => simp [spliceInsert]
  | cons x xs ih =>
    rw [List.cons_append, List.length_cons, Nat.add_right_comm, spliceInsert_cons, ih,
      List.cons_append]

lemma getElem?_append_add {α : Type*} (l₁ l₂ : List α) (i : ℕ) :
    (l₁ ++ l₂)[l₁.length + i]? = l₂[i]? := by
  rw [List.getElem?_append_right (Nat.le_add_right _ _), Nat.add_sub_cancel_left]

lemma eraseIdx_append_add {α : Type*} (l₁ l₂ : List α) (i : ℕ) :
    (l₁ ++ l₂).eraseIdx (l₁.length + i) = l₁ ++ l₂.eraseIdx i := by
  rw [List.eraseIdx_append_of_length_le (Nat.le_add_right _ _), Nat.add_sub_cancel_left]

lemma getElem?_append_cons {α : Type*} (l₁ : List α) (a : α) (l₂ : List α) :
    (l₁ ++ a :: l₂)[l₁.length]? = some a := by
  simpa using getElem?_append_add l₁ (a :: l₂) 0

lemma eraseIdx_append_cons {α : Type*} (l₁ : List α) (a : α) (l₂ : List α) :
    (l₁ ++ a :: l₂).eraseIdx l₁.length = l₁ ++ l₂ := by
  simpa using eraseIdx_append_add l₁ (a :: l₂) 0

lemma getElem?_spliceInsert {α : Type*} (m : List α) (i : ℕ) (a : α) (h : i ≤ m.length) :
    (spliceInsert m i a)[i]? = some a := by
  have hl : (m.take i).length = i := by simp [List.length_take, Nat.min_eq_left h]
  have hg := getElem?_append_cons (m.take i) a (m.drop i)
  rw [hl] at hg
  rw [spliceInsert]
  exact hg

lemma eraseIdx_spliceInsert {α : Type*} (m : List α) (i : ℕ) (a : α) (h : i ≤ m.length) :
    (spliceInsert m i a).eraseIdx i = m := by
  have hl : (m.take i).length = i := by simp [List.length_take, Nat.min_eq_left h]
  have he := eraseIdx_append_cons (m.take i) a (m.drop i)
  rw [hl] at he
  rw [spliceInsert, he, List.take_append_drop]

lemma moveItem_down_decomp {α : Type*} (l₁ : List α) (a b : α) (l₂ : List α) :
    moveItem (l₁ ++ a :: b :: l₂) l₁.length .down = l₁ ++ b :: a :: l₂ := by
  simp only [moveItem]
  rw [if_neg (by simp only [List.length_append, List.length_cons]; push_cast; omega)]
  simp only [getElem?_append_cons, eraseIdx_append_cons]
  rw [show (((l₁.length : ℕ) : ℤ) + 1).toNat = l₁.length + 1 by omega,
    spliceInsert_append l₁ (b :: l₂) 1 a, spliceInsert_cons]
  rfl

lemma moveItem_up_decomp {α : Type*} (l₁ : List α) (b a : α) (l₂ : List α) :
    moveItem (l₁ ++ b :: a :: l₂) (l₁.length + 1) .up = l₁ ++ a :: b :: l₂ := by
  simp only [moveItem]
  rw [if_neg (by simp only [List.length_append, List.length_cons]; push_cast; omega)]
  have hg : (l₁ ++ b :: a :: l₂)[l₁.length + 1]? = some a := by
    simpa using getElem?_append_add l₁ (b :: a :: l₂) 1
  have he : (l₁ ++ b :: a :: l₂).eraseIdx (l₁.length + 1) = l₁ ++ b :: l₂ := by
    simpa using eraseIdx_append_add l₁ (b :: a :: l₂) 1
  simp only [hg, he]
  rw [show (((l₁.length + 1 : ℕ) : ℤ) - 1).toNat = l₁.length + 0 by omega,
    spliceInsert_append l₁ (b :: l₂) 0 a]
  rfl

lemma arrowMoveDown_decomp {α : Type*} :
    ∀ (k : ℕ) (l₁ : List α) (a : α) (l₂ : List α), k ≤ l₂.length →
      arrowMoveDown (l₁ ++ a :: l₂) l₁.length k = l₁ ++ spliceInsert l₂ k a
  | 0, l₁, a, l₂, _ => by
    rw [arrowMoveDown]
    simp [spliceInsert]
  | k + 1, l₁, a, l₂, h => by
    match l₂, h with
    | b :: l₂', h =>
      rw [arrowMoveDown, moveItem_down_decomp l₁ a b l₂',
        show l₁ ++ b :: a :: l₂' = (l₁ ++ [b]) ++ a :: l₂' by simp,
        show l₁.length + 1 = (l₁ ++ [b]).length by simp,
        arrowMoveDown_decomp k (l₁ ++ [b]) a l₂' (Nat.le_of_succ_le_succ h),
        spliceInsert_cons]
      simp

lemma arrowMoveUp_decomp {α : Type*} :
    ∀ (k : ℕ) (l₁ : List α) (a : α) (l₂ : List α), k ≤ l₁.length →
      arrowMoveUp (l₁ ++ a :: l₂) l₁.length k = spliceInsert (l₁ ++ l₂) (l₁.length - k) a
  | 0, l₁, a, l₂, _ => by
    rw [arrowMoveUp, Nat.sub_zero]
    have h0 := spliceInsert_append l₁ l₂ 0 a
    rw [Nat.add_zero] at h0
    rw [h0]
    rfl
  | k + 1, l₁, a, l₂, h => by
    obtain ⟨l₁', b, rfl⟩ : ∃ l₁' b, l₁ = l₁' ++ [b] := by
      cases l₁ with
      | nil => simp at h
      | cons x xs =>
        exact ⟨(x :: xs).dropLast, (x :: xs).getLast (by simp),
          (List.dropLast_append_getLast (by simp)).symm⟩
    rw [arrowMoveUp,
      show (l₁' ++ [b]).length = l₁'.length + 1 by simp,
      show (l₁' ++ [b]) ++ a :: l₂ = l₁' ++ b :: a :: l₂ by simp,
      moveItem_up_decomp l₁' b a l₂,
      show l₁'.length + 1 - 1 = l₁'.length from rfl,
      arrowMoveUp_decomp k l₁' a (b :: l₂) (by simp at h; omega),
      show (l₁' ++ [b]) ++ l₂ = l₁' ++ b :: l₂ by simp,
      show l₁'.length + 1 - (k + 1) = l₁'.length - k by omega]

lemma handleDropItem_decomp {α : Type*} (l₁ : List α) (a : α) (l₂ : List α) (dst : ℕ) :
    handleDropItem (l₁ ++ a :: l₂) l₁.length dst = spliceInsert (l₁ ++ l₂) dst a := by
  simp only [handleDropItem, getElem?_append_cons, eraseIdx_append_cons]

/-! # Claim theorems -/

/-- C1.  `totalExpenses(record)` (the nested `reduce` of `RecordForm.tsx`
108–112 and `Dashboard.tsx` 106/115) equals the sum of `item.amount` over
every item of every category, an item whose amount is falsy/undefined/NaN
contributing `0` to the sum. -/
theorem C1_totalExpenses_eq_flat_sum (expenses : List ExpenseCategory) :
    currentTotalExpenses expenses = specTotalExpenses expenses := by
  have h1 := foldl_add_eq_sum
    (fun cat : ExpenseCategory => cat.items.foldl (fun sub item => sub + item.amount.orZero) 0)
    expenses 0
  rw [currentTotalExpenses, h1, zero_add]
  have h2 : expenses.map
        (fun cat : ExpenseCategory => cat.items.foldl (fun sub item => sub + item.amount.orZero) 0)
      = expenses.map (fun cat => (cat.items.map (fun i => i.amount.orZero)).sum) := by
    refine List.map_congr_left ?_
    intro cat _
    simpa using foldl_add_eq_sum (fun i => i.amount.orZero) cat.items 0
  rw [h2, map_catSum_eq_spec]

/-- C2 (code bug).  The claim — an absent `isCompleted` must decode to
`COMPLETED` — is implemented by the second `RecordForm.tsx` variant
(445–453) and stated there in its own comment, but the first variant's
truthiness test (49–55) sends the very same legacy record to `IN_PROGRESS`:
evaluated at the failing input (a stored record with `isClosed: false` and
no `isCompleted` field), the two decoders disagree exactly as described. -/
theorem C2_legacy_decode_first_variant_bug :
    decodeStatusV1 (storedRec false none) = .IN_PROGRESS
    ∧ decodeStatusV2 (storedRec false none) = .COMPLETED
    ∧ decodeStatusV2 (storedRec false (some false)) = .IN_PROGRESS
    ∧ decodeStatusV2 (storedRec false (some true)) = .COMPLETED
    ∧ decodeStatusV2 (storedRec true none) = .CLOSED
    ∧ decodeStatusV2 (storedRec true (some false)) = .CLOSED
    ∧ decodeStatusV1 (storedRec false none) ≠ .COMPLETED := by
  decide

/-- C3.  With a date present, submitting in the `COMPLETED` state with an
empty `totalSales` input returns the blocking validation alert — no record
value is produced, so nothing reaches `handleSave` — while in the `CLOSED`
or `IN_PROGRESS` state the same empty `totalSales` lets the save through. -/
theorem C3_completed_requires_totalSales (s : FormState) (rid : Option String)
    (nid : String) (hdate : s.date ≠ none) :
    (s.status = .COMPLETED → s.totalSales = "" →
      handleSubmit s rid nid = .error "Total Sales is required to mark as Completed")
    ∧ (s.status = .CLOSED ∨ s.status = .IN_PROGRESS →
        ∃ r, handleSubmit s rid nid = .ok r) := by
  obtain ⟨d, hd⟩ : ∃ d, s.date = some d := by
    cases h : s.date with
    | none => exact absurd h hdate
    | some d => exact ⟨d, rfl⟩
  constructor
  · intro hst hts
    have c1 : s.status ≠ RStatus.CLOSED := by rw [hst]; decide
    simp only [handleSubmit, hd]
    rw [if_pos ⟨c1, hts, hst⟩]
  · intro hst
    have hc : ¬(s.status ≠ RStatus.CLOSED ∧ s.totalSales = "" ∧ s.status = RStatus.COMPLETED) := by
      rintro ⟨h1, -, h3⟩
      rcases hst with h | h
      · exact h1 h
      · rw [h] at h3; exact absurd h3 (by decide)
    exact ⟨_, by simp only [handleSubmit, hd]; rw [if_neg hc]⟩

/-- Witness for C3: a concrete completed form with empty sales is blocked
with the required-sales alert. -/
theorem C3_witness :
    ((⟨some 5, "", "", [], .COMPLETED⟩ : FormState).date ≠ none)
    ∧ (handleSubmit ⟨some 5, "", "", [], .COMPLETED⟩ none "n1"
        = .error "Total Sales is required to mark as Completed") :=
  ⟨by decide,
    (C3_completed_requires_totalSales ⟨some 5, "", "", [], .COMPLETED⟩ none "n1"
      (by decide)).1 rfl rfl⟩

/-- C9.  Every record the submit path hands to storage satisfies
`isClosed → isCompleted`; in particular submitting in the `CLOSED` state
sets both flags regardless of the sales inputs. -/
theorem C9_closed_implies_completed (s : FormState) (rid : Option String)
    (nid : String) (r : DailyRecord) (h : handleSubmit s rid nid = .ok r) :
    (r.isClosed = true → r.isCompleted = some true)
    ∧ (s.status = .CLOSED → r.isClosed = true ∧ r.isCompleted = some true) := by
  unfold handleSubmit at h
  split at h
  · exact absurd h (by simp)
  · split at h
    · exact absurd h (by simp)
    · have hr := (Except.ok.injEq _ _).mp h
      subst hr
      cases hst : s.status <;> simp [hst]

/-- Witness for C9: a concrete `CLOSED` submission with empty sales inputs
produces a record with `isClosed = true` and `isCompleted = true`. -/
theorem C9_witness :
    (handleSubmit ⟨some 5, "", "", [], .CLOSED⟩ none "n1"
        = .ok ⟨"n1", 5, 0, 0, [], true, some true⟩)
    ∧ ((⟨"n1", 5, 0, 0, [], true, some true⟩ : DailyRecord).isClosed = true →
          (⟨"n1", 5, 0, 0, [], true, some true⟩ : DailyRecord).isCompleted = some true)
    ∧ ((⟨some 5, "", "", [], .CLOSED⟩ : FormState).status = .CLOSED →
          (⟨"n1", 5, 0, 0, [], true, some true⟩ : DailyRecord).isClosed = true
          ∧ (⟨"n1", 5, 0, 0, [], true, some true⟩ : DailyRecord).isCompleted = some true) := by
  refine ⟨rfl, ?_⟩
  exact C9_closed_implies_completed ⟨some 5, "", "", [], .CLOSED⟩ none "n1"
    ⟨"n1", 5, 0, 0, [], true, some true⟩ rfl

/-- C5 (counterexample).  `handleExpenseChange` does not reject non-numeric
input: editing an item whose amount is `5` with the raw value `"abc"`
changes its amount to `NaN` — the edit is applied, the amount does not stay
unchanged (though it is indeed not coerced to `0`). -/
theorem C5_counterexample :
    handleExpenseChange [⟨"c1", "Veg", [⟨"i1", "Rice", .num 5, []⟩]⟩] "c1" "i1" "abc"
      = [⟨"c1", "Veg", [⟨"i1", "Rice", .nan, []⟩]⟩]
    ∧ Amount.nan ≠ .num 5 ∧ Amount.nan ≠ .num 0 := by
  decide

/-- C5 as amended.  The amount edit parses the raw value: the empty string
maps to amount `0`; every other raw value maps to `parseFloat(raw)`, so
non-numeric input is not rejected but stored as `NaN` (never silently
coerced to `0`); all non-targeted structure is untouched. -/
theorem C5_amended_parse_behavior (expenses : List ExpenseCategory) (cid iid raw : String) :
    List.Forall₂ (catFrameAmount cid iid raw) expenses
      (handleExpenseChange expenses cid iid raw)
    ∧ amountEditVal "" = Amount.num 0
    ∧ amountEditVal "abc" = Amount.nan
    ∧ amountEditVal "abc" ≠ Amount.num 0
    ∧ (raw ≠ "" → amountEditVal raw = jsParseFloat raw) := by
  refine ⟨forall₂_catFrameAmount expenses cid iid raw, by decide, by decide, by decide, ?_⟩
  intro h
  rw [amountEditVal, if_neg h]

/-- Witness for C5's amended theorem at a concrete record and raw value. -/
theorem C5_amended_witness :
    List.Forall₂ (catFrameAmount "c1" "i1" "7")
      [⟨"c1", "Veg", [⟨"i1", "Rice", .num 5, []⟩]⟩]
      (handleExpenseChange [⟨"c1", "Veg", [⟨"i1", "Rice", .num 5, []⟩]⟩] "c1" "i1" "7")
    ∧ amountEditVal "" = Amount.num 0
    ∧ amountEditVal "abc" = Amount.nan
    ∧ amountEditVal "abc" ≠ Amount.num 0
    ∧ ("7" ≠ "" → amountEditVal "7" = jsParseFloat "7") :=
  C5_amended_parse_behavior [⟨"c1", "Veg", [⟨"i1", "Rice", .num 5, []⟩]⟩] "c1" "i1" "7"

/-- C10.  An amount edit (resp. photo edit) targeting `(categoryId, itemId)`
leaves the form's date, sales inputs and status untouched, preserves the
category list's length, order, ids and names, preserves every item's id and
name, leaves every non-targeted item entirely unchanged, and on the targeted
item changes only the `amount` (resp. only the `billPhotos`) field. -/
theorem C10_targeted_edit_frame (s : FormState) (cid iid raw : String)
    (photos : List String) :
    ((applyAmountEdit s cid iid raw).date = s.date
      ∧ (applyAmountEdit s cid iid raw).morningSales = s.morningSales
      ∧ (applyAmountEdit s cid iid raw).totalSales = s.totalSales
      ∧ (applyAmountEdit s cid iid raw).status = s.status
      ∧ List.Forall₂ (catFrameAmount cid iid raw) s.expenses
          (applyAmountEdit s cid iid raw).expenses)
    ∧ ((applyPhotoEdit s cid iid photos).date = s.date
      ∧ (applyPhotoEdit s cid iid photos).morningSales = s.morningSales
      ∧ (applyPhotoEdit s cid iid photos).totalSales = s.totalSales
      ∧ (applyPhotoEdit s cid iid photos).status = s.status
      ∧ List.Forall₂ (catFramePhotos cid iid photos) s.expenses
          (applyPhotoEdit s cid iid photos).expenses) :=
  ⟨⟨rfl, rfl, rfl, rfl, forall₂_catFrameAmount s.expenses cid iid raw⟩,
    ⟨rfl, rfl, rfl, rfl, forall₂_catFramePhotos s.expenses cid iid photos⟩⟩

/-- C6 (counterexample).  The taxonomy editor's duplicate check is
case-sensitive, not case-insensitive: with `"Onion"` already in the
category, adding `"onion"` — a duplicate under the claimed case-insensitive
comparison — is not rejected; it changes the structure by appending the new
item. -/
theorem C6_counterexample :
    handleAddItem [("Veg", [⟨"Onion", 0⟩])] "Veg" "onion"
      = .ok [("Veg", [⟨"Onion", 0⟩, ⟨"onion", 0⟩])]
    ∧ jsToLower "onion" = jsToLower "Onion"
    ∧ handleAddItem [("Veg", [⟨"Onion", 0⟩])] "Veg" "onion" ≠ .dup := by
  decide

/-- C6 as amended.  Adding an item to a taxonomy category fails with the
duplicate-name alert — leaving the structure unmodified — exactly when an
item with the same trimmed name already exists in the category under a
case-SENSITIVE (exact string) comparison; otherwise the new item (default
value 0) is appended at the end of that category's item order and every
other category is untouched. -/
theorem C6_amended_case_sensitive_add (st : CustomExpenseStructure)
    (catName raw : String) (items : List ItemTemplate)
    (hne : jsTrim raw ≠ "") (hget : structGet st catName = some items) :
    (items.any (fun i => i.name = jsTrim raw) = true →
      handleAddItem st catName raw = .dup)
    ∧ (items.any (fun i => i.name = jsTrim raw) = false →
      handleAddItem st catName raw
        = .ok (structSet st catName (items ++ [⟨jsTrim raw, 0⟩]))) := by
  constructor <;> intro ha <;>
    simp only [handleAddItem, if_neg hne, hget] <;> simp [ha]

/-- Witness for C6's amended theorem: an exact duplicate (same case) is
rejected with the structure untouched. -/
theorem C6_amended_witness :
    (jsTrim "Onion" ≠ "")
    ∧ structGet [("Veg", [⟨"Onion", 0⟩])] "Veg" = some [⟨"Onion", 0⟩]
    ∧ (([⟨"Onion", 0⟩] : List ItemTemplate).any (fun i => i.name = jsTrim "Onion") = true →
        handleAddItem [("Veg", [⟨"Onion", 0⟩])] "Veg" "Onion" = .dup)
    ∧ (([⟨"Onion", 0⟩] : List ItemTemplate).any (fun i => i.name = jsTrim "Onion") = false →
        handleAddItem [("Veg", [⟨"Onion", 0⟩])] "Veg" "Onion"
          = .ok (structSet [("Veg", [⟨"Onion", 0⟩])] "Veg"
              ([⟨"Onion", 0⟩] ++ [⟨jsTrim "Onion", 0⟩]))) :=
  ⟨by decide, by decide,
    C6_amended_case_sensitive_add [("Veg", [⟨"Onion", 0⟩])] "Veg" "Onion"
      [⟨"Onion", 0⟩] (by decide) (by decide)⟩

/-- C4 (counterexample).  With "A" last bought five days ago and "B" never
bought, the watch list is `[⟨A, 5⟩, ⟨B, -1⟩]`: the list is sorted descending
by `daysAgo`, so the `-1` "never" sentinel sorts last — the head is the "A"
entry, not the never-purchased "B" entry the claim puts first. -/
theorem C4_counterexample :
    inventoryAlerts [watchRec] ["A", "B"] 10 = [⟨"A", 5⟩, ⟨"B", -1⟩]
    ∧ (alertFor [watchRec] 10 "B").daysAgo = -1
    ∧ (inventoryAlerts [watchRec] ["A", "B"] 10).head? = some ⟨"A", 5⟩
    ∧ (inventoryAlerts [watchRec] ["A", "B"] 10).head? ≠ some ⟨"B", -1⟩ := by
  decide

/-- C4 as amended.  `inventoryAlerts` returns one entry per tracked item
(a permutation of the per-item alerts, hence equal length); an item whose
name never occurs with a positive amount gets the sentinel `-1`, which is
distinct from zero days; every other entry carries a non-negative
days-elapsed value; and the list is sorted descending by `daysAgo` — which
places the `-1` "never" entries last, not first. -/
theorem C4_amended_inventory_watch (records : List DailyRecord)
    (tracked : List String) (today : ℤ) :
    (inventoryAlerts records tracked today).length = tracked.length
    ∧ (inventoryAlerts records tracked today).Perm (tracked.map (alertFor records today))
    ∧ List.Sorted alertGE (inventoryAlerts records tracked today)
    ∧ (∀ name, (alertFor records today name).daysAgo = -1 ↔
        ∀ r ∈ records, (r.expenses.any (fun cat =>
          cat.items.any (fun i => i.name == name && i.amount.isPos))) = false)
    ∧ (∀ a ∈ inventoryAlerts records tracked today, a.daysAgo = -1 ∨ 0 ≤ a.daysAgo) := by
  refine ⟨((inventoryAlerts_perm records tracked today).length_eq).trans
      (List.length_map tracked _), inventoryAlerts_perm records tracked today,
    inventoryAlerts_sorted records tracked today, ?_, ?_⟩
  · intro name
    cases hf : records.find? (fun r => r.expenses.any (fun cat =>
        cat.items.any (fun i => i.name == name && i.amount.isPos))) with
    | none =>
      simp only [alertFor, hf]
      constructor
      · intro _ r hr
        simpa using List.find?_eq_none.mp hf r hr
      · intro _; trivial
    | some r0 =>
      simp only [alertFor, hf]
      constructor
      · intro habs
        have := abs_nonneg (today - r0.date)
        omega
      · intro hall
        have h1 := List.find?_some hf
        have h2 := List.mem_of_find?_eq_some hf
        rw [hall r0 h2] at h1
        exact absurd h1 (by decide)
  · intro a ha
    have hm : a ∈ tracked.map (alertFor records today) :=
      (inventoryAlerts_perm records tracked today).mem_iff.mp ha
    obtain ⟨name, -, rfl⟩ := List.mem_map.mp hm
    cases hf : records.find? (fun r => r.expenses.any (fun cat =>
        cat.items.any (fun i => i.name == name && i.amount.isPos))) with
    | none => simp [alertFor, hf]
    | some r0 =>
      simp only [alertFor, hf]
      exact Or.inr (abs_nonneg _)

/-- C8.  `monthAggregate` (the current-month block of `dashboardData`) sums
sales and expenses exactly over the records inside the inclusive date range
with `isClosed` false; assuming the data-model invariant that stored sales
totals are non-negative, each cost-ratio percentage equals
`categorySum / totalSales * 100` with the ratio defined as `0` when
`totalSales` is `0`; over an empty record set everything is `0` (over `ℚ`,
so no NaN/Infinity can arise). -/
theorem C8_monthAggregate_properties (records : List DailyRecord)
    (monthStart monthEnd : ℤ) (foodCats : List String)
    (hpos : ∀ r ∈ records, 0 ≤ r.totalSales) :
    (dashboardData records monthStart monthEnd foodCats).totalSales
        = ((currentMonthOf records monthStart monthEnd).map (fun r => r.totalSales)).sum
    ∧ (dashboardData records monthStart monthEnd foodCats).totalExpenses
        = ((currentMonthOf records monthStart monthEnd).map calculateTotalExpenses).sum
    ∧ (dashboardData records monthStart monthEnd foodCats).netProfit
        = (dashboardData records monthStart monthEnd foodCats).totalSales
          - (dashboardData records monthStart monthEnd foodCats).totalExpenses
    ∧ (dashboardData records monthStart monthEnd foodCats).foodCostPct
        = (if (dashboardData records monthStart monthEnd foodCats).totalSales = 0 then 0
           else foodCostOf (currentMonthOf records monthStart monthEnd) foodCats
             / (dashboardData records monthStart monthEnd foodCats).totalSales * 100)
    ∧ (dashboardData records monthStart monthEnd foodCats).laborCostPct
        = (if (dashboardData records monthStart monthEnd foodCats).totalSales = 0 then 0
           else laborCostOf (currentMonthOf records monthStart monthEnd)
             / (dashboardData records monthStart monthEnd foodCats).totalSales * 100)
    ∧ (records = [] →
        (dashboardData records monthStart monthEnd foodCats).totalSales = 0
        ∧ (dashboardData records monthStart monthEnd foodCats).totalExpenses = 0
        ∧ (dashboardData records monthStart monthEnd foodCats).netProfit = 0
        ∧ (dashboardData records monthStart monthEnd foodCats).foodCostPct = 0
        ∧ (dashboardData records monthStart monthEnd foodCats).laborCostPct = 0) := by
  have hsales : (dashboardData records monthStart monthEnd foodCats).totalSales
      = ((currentMonthOf records monthStart monthEnd).map (fun r => r.totalSales)).sum := by
    simp only [dashboardData]
    simpa using foldl_add_eq_sum (fun r : DailyRecord => r.totalSales)
      (currentMonthOf records monthStart monthEnd) 0
  have hexp : (dashboardData records monthStart monthEnd foodCats).totalExpenses
      = ((currentMonthOf records monthStart monthEnd).map calculateTotalExpenses).sum := by
    simp only [dashboardData]
    simpa using foldl_add_eq_sum calculateTotalExpenses
      (currentMonthOf records monthStart monthEnd) 0
  have hnonneg : 0 ≤ (dashboardData records monthStart monthEnd foodCats).totalSales := by
    rw [hsales]
    refine List.sum_nonneg ?_
    intro x hx
    obtain ⟨r, hr, rfl⟩ := List.mem_map.mp hx
    exact hpos r (List.mem_filter.mp hr).1
  have hcosts : (dashboardData records monthStart monthEnd foodCats).foodCostPct
        = (if 0 < (dashboardData records monthStart monthEnd foodCats).totalSales
           then foodCostOf (currentMonthOf records monthStart monthEnd) foodCats
             / (dashboardData records monthStart monthEnd foodCats).totalSales * 100 else 0)
      ∧ (dashboardData records monthStart monthEnd foodCats).laborCostPct
        = (if 0 < (dashboardData records monthStart monthEnd foodCats).totalSales
           then laborCostOf (currentMonthOf records monthStart monthEnd)
             / (dashboardData records monthStart monthEnd foodCats).totalSales * 100 else 0) := by
    simp only [dashboardData]
    rw [cost_fold_records foodCats]
    constructor <;> simp
  have hgate : ∀ x : ℚ,
      (if 0 < (dashboardData records monthStart monthEnd foodCats).totalSales
        then x / (dashboardData records monthStart monthEnd foodCats).totalSales * 100 else 0)
      = (if (dashboardData records monthStart monthEnd foodCats).totalSales = 0 then 0
        else x / (dashboardData records monthStart monthEnd foodCats).totalSales * 100) := by
    intro x
    rcases eq_or_lt_of_le hnonneg with h0 | h0
    · rw [if_neg (by rw [← h0]; exact lt_irrefl 0), if_pos h0.symm]
    · rw [if_pos h0, if_neg (ne_of_gt h0)]
  refine ⟨hsales, hexp, rfl, (hcosts.1.trans (hgate _)), (hcosts.2.trans (hgate _)), ?_⟩
  rintro rfl
  have hcur : currentMonthOf ([] : List DailyRecord) monthStart monthEnd = [] := rfl
  refine ⟨by rw [hsales, hcur]; rfl, by rw [hexp, hcur]; rfl, ?_, ?_, ?_⟩
  · rw [show (dashboardData [] monthStart monthEnd foodCats).netProfit
        = (dashboardData [] monthStart monthEnd foodCats).totalSales
          - (dashboardData [] monthStart monthEnd foodCats).totalExpenses from rfl,
      hsales, hexp, hcur]
    norm_num
  · rw [hcosts.1, if_neg (by rw [hsales, hcur]; exact lt_irrefl 0)]
  · rw [hcosts.2, if_neg (by rw [hsales, hcur]; exact lt_irrefl 0)]

/-- Witness for C8 at the empty record collection: zero sales, zero
expenses, zero profit and 0% for both cost ratios. -/
theorem C8_witness :
    (∀ r ∈ ([] : List DailyRecord), 0 ≤ r.totalSales)
    ∧ (dashboardData [] 0 30 ["Veg"]).totalSales
        = ((currentMonthOf [] 0 30).map (fun r => r.totalSales)).sum
    ∧ (dashboardData [] 0 30 ["Veg"]).totalExpenses
        = ((currentMonthOf [] 0 30).map calculateTotalExpenses).sum
    ∧ (dashboardData [] 0 30 ["Veg"]).netProfit
        = (dashboardData [] 0 30 ["Veg"]).totalSales
          - (dashboardData [] 0 30 ["Veg"]).totalExpenses
    ∧ (dashboardData [] 0 30 ["Veg"]).foodCostPct
        = (if (dashboardData [] 0 30 ["Veg"]).totalSales = 0 then 0
           else foodCostOf (currentMonthOf [] 0 30) ["Veg"]
             / (dashboardData [] 0 30 ["Veg"]).totalSales * 100)
    ∧ (dashboardData [] 0 30 ["Veg"]).laborCostPct
        = (if (dashboardData [] 0 30 ["Veg"]).totalSales = 0 then 0
           else laborCostOf (currentMonthOf [] 0 30)
             / (dashboardData [] 0 30 ["Veg"]).totalSales * 100)
    ∧ (([] : List DailyRecord) = [] →
        (dashboardData [] 0 30 ["Veg"]).totalSales = 0
        ∧ (dashboardData [] 0 30 ["Veg"]).totalExpenses = 0
        ∧ (dashboardData [] 0 30 ["Veg"]).netProfit = 0
        ∧ (dashboardData [] 0 30 ["Veg"]).foodCostPct = 0
        ∧ (dashboardData [] 0 30 ["Veg"]).laborCostPct = 0) :=
  ⟨by simp, C8_monthAggregate_properties [] 0 30 ["Veg"] (by simp)⟩

/-- C7.  For every list and every in-range `(src, dst)` pair, repeatedly
pressing the arrow button (`moveItem`, one adjacent splice-move per press)
until the element reaches `dst` produces exactly the list of the single
drag-and-drop splice-move (`handleDropItem`); both realise the same
"remove at `src`, insert at `dst`" operation: the moved element ends at
index `dst` and deleting it there recovers the original list with the
element removed — all other elements keep their relative order. -/
theorem C7_arrow_and_drop_reorder_agree {α : Type*} (l : List α) (src dst : ℕ)
    (h1 : src < l.length) (h2 : dst < l.length) :
    arrowMove l src dst = handleDropItem l src dst
    ∧ (handleDropItem l src dst).eraseIdx dst = l.eraseIdx src
    ∧ (handleDropItem l src dst)[dst]? = l[src]? := by
  obtain ⟨l₁, a, l₂, hsplit, hlen⟩ :
      ∃ (l₁ : List α) (a : α) (l₂ : List α), l = l₁ ++ a :: l₂ ∧ l₁.length = src := by
    refine ⟨l.take src, l[src], l.drop (src + 1), ?_, ?_⟩
    · conv_lhs => rw [← List.take_append_drop src l]
      congr 1
      exact (List.getElem_cons_drop l src h1).symm
    · simp [List.length_take, Nat.min_eq_left (le_of_lt h1)]
  subst hsplit
  subst hlen
  have hlen2 : dst ≤ (l₁ ++ l₂).length := by
    simp only [List.length_append, List.length_cons] at h2 ⊢
    omega
  have hd := handleDropItem_decomp l₁ a l₂ dst
  refine ⟨?_, ?_, ?_⟩
  · rw [hd, arrowMove]
    by_cases hc : l₁.length ≤ dst
    · rw [if_pos hc]
      obtain ⟨j, rfl⟩ : ∃ j, dst = l₁.length + j := ⟨dst - l₁.length, by omega⟩
      rw [Nat.add_sub_cancel_left,
        arrowMoveDown_decomp j l₁ a l₂
          (by simp only [List.length_append, List.length_cons] at h2; omega),
        spliceInsert_append]
    · rw [if_neg hc,
        arrowMoveUp_decomp (l₁.length - dst) l₁ a l₂ (by omega),
        show l₁.length - (l₁.length - dst) = dst by omega]
  · rw [hd, eraseIdx_append_cons, eraseIdx_spliceInsert (l₁ ++ l₂) dst a hlen2]
  · rw [hd, getElem?_spliceInsert (l₁ ++ l₂) dst a hlen2, getElem?_append_cons]

/-- Witness for C7 at a concrete list and index pair (move `13` from index 3
to index 1). -/
theorem C7_witness :
    ((3 : ℕ) < ([10, 11, 12, 13] : List ℕ).length)
    ∧ ((1 : ℕ) < ([10, 11, 12, 13] : List ℕ).length)
    ∧ (arrowMove [10, 11, 12, 13] 3 1 = handleDropItem [10, 11, 12, 13] 3 1
      ∧ (handleDropItem [10, 11, 12, 13] 3 1).eraseIdx 1
          = ([10, 11, 12, 13] : List ℕ).eraseIdx 3
      ∧ (handleDropItem [10, 11, 12, 13] 3 1)[1]? = ([10, 11, 12, 13] : List ℕ)[3]?) :=
  ⟨by decide, by decide,
    C7_arrow_and_drop_reorder_agree [10, 11, 12, 13] 3 1 (by decide) (by decide)⟩
